import Mathlib

/-!
Shallow embedding of `src/main.cpp` of the Cyberwall dual-actuator wall
controller, together with proofs about its synchronization, homing and
debounce logic.

Modelling conventions:
* The target is an AVR Arduino, where `int` is 16 bits and `long` is 32
  bits.  `long` values are modelled as `Int`; the narrowing of a `long`
  expression into an `int` variable, and `int` additions and negations
  that can overflow, are modelled by `wrap16` (wrap into
  `[-32768, 32767]`).  C++ division of signed integers truncates toward
  zero, which is `Int.tdiv`.
* `millis()` timestamps are `unsigned long`; edge times are modelled as
  absolute `Nat` instants, and the wrapping unsigned subtraction
  `millis() - lastDebounceTime` is `(now - last) % 2^32`, which agrees
  with the machine computation for monotone absolute times.
* The Arduino `min`/`abs` macros are `cMin`/`cAbs` below, the latter
  evaluated at `int` width.
* Hardware `analogWrite` calls are modelled as the pair of values written
  to the forward and reverse PWM channels of each actuator.
-/

namespace Cyberwall

/-- `#define NUMBER_OF_ACTUATORS 2`. -/
def NUMBER_OF_ACTUATORS : Nat := 2

/-- `#define FALSE_PULSE_DELAY 8` — debounce delay for hall sensors (ms). -/
def FALSE_PULSE_DELAY : Nat := 8

/-- `#define BASE_SPEED 100` — base PWM speed for actuators. -/
def BASE_SPEED : Int := 100

/-- `#define OFFSET_MULTIPLIER 5` — multiplier for speed offset. -/
def OFFSET_MULTIPLIER : Int := 5

/-- Modulus of `unsigned long` arithmetic (32-bit `millis()` clock). -/
def ULONG_MOD : Nat := 4294967296

/-- Narrowing to 16-bit signed `int` on the AVR target: wrap modulo
`2^16` into `[-32768, 32767]`. -/
def wrap16 (x : Int) : Int := (x + 32768) % 65536 - 32768

/-- The Arduino `min` macro: `((a)<(b)?(a):(b))` — a comparison, no
arithmetic, hence no width effect. -/
def cMin (a b : Int) : Int := if a < b then a else b

/-- The Arduino `abs` macro `((x)>0?(x):-(x))` evaluated at `int` width:
the negation itself is a 16-bit operation, so `abs(-32768)` wraps back to
`-32768`. -/
def cAbs (x : Int) : Int := if x > 0 then x else wrap16 (-x)

/-- `struct ActuatorData { int speed; volatile long steps; volatile long prevSteps; }`. -/
structure ActuatorData where
  speed : Int
  steps : Int
  prevSteps : Int
deriving DecidableEq

/-- The accumulation `totalSteps += actuators[i].steps` over the actuator
array, starting from `long totalSteps = 0`. -/
def totalSteps (acts : List ActuatorData) : Int :=
  acts.foldl (fun t a => t + a.steps) 0

/-- `long avgSteps = totalSteps / NUMBER_OF_ACTUATORS;` — C++ `/` on signed
operands truncates toward zero (`Int.tdiv`).  Stated over the length of the
actuator array so that it covers any actuator count. -/
def avgSteps (acts : List ActuatorData) : Int :=
  Int.tdiv (totalSteps acts) (acts.length : Int)

/-- `int offset = (avgSteps - actuators[i].steps) * OFFSET_MULTIPLIER * direction;`
— the right-hand side is computed in `long` and then narrowed into the
16-bit `int` variable. -/
def offset (direction avg st : Int) : Int :=
  wrap16 ((avg - st) * OFFSET_MULTIPLIER * direction)

/-- `actuators[i].speed = min(abs(BASE_SPEED + offset), 255);` — the sum
`BASE_SPEED + offset` is 16-bit `int` arithmetic, so it can wrap. -/
def speedCmd (direction avg st : Int) : Int :=
  cMin (cAbs (wrap16 (BASE_SPEED + offset direction avg st))) 255

/-- The `switch (direction)` PWM routing of `driveActuators`: forward
channel and reverse channel written for one actuator. -/
def pwmWrite (direction spd : Int) : Int × Int :=
  if direction = 1 then (spd, 0)
  else if direction = -1 then (0, spd)
  else (0, 0)

/-- The state `driveActuators` reads: the actuator array and the global
`int direction`. -/
structure DriveState where
  actuators : List ActuatorData
  direction : Int

/-- Result of one `driveActuators` call: the updated actuator array and the
`(FPWM, RPWM)` magnitudes written for each actuator. -/
structure DriveResult where
  actuators : List ActuatorData
  pwm : List (Int × Int)

/-- One call of `driveActuators()`: sum the steps, compute the truncated
average, then per actuator compute the offset, store the clamped speed and
route it to the PWM channels according to `direction`. -/
def driveActuators (s : DriveState) : DriveResult :=
  let avg := avgSteps s.actuators
  let acts := s.actuators.map
    (fun a => { a with speed := speedCmd s.direction avg a.steps })
  { actuators := acts
    pwm := acts.map (fun a => pwmWrite s.direction a.speed) }

/-- The per-iteration local `offset` values of `driveActuators`. -/
def offsets (s : DriveState) : List Int :=
  s.actuators.map (fun a => offset s.direction (avgSteps s.actuators) a.steps)

/-- The PWM pair written inside the dwell window of `moveToLimit`:
`analogWrite(FPWM[i], direction == 1 ? speed : 0);`
`analogWrite(RPWM[i], direction == -1 ? speed : 0);` -/
def moveToLimitPwm (direction spd : Int) : Int × Int :=
  ((if direction = 1 then spd else 0), (if direction = -1 then spd else 0))

/-- One iteration of the `do { ... } while (haveStepsChanged())` homing
loop, abstracting the dwell window: `prevSteps` is snapshotted from
`steps`, then during the 200 ms busy-wait the interrupt handlers change
actuator `i`'s `steps` by some net amount `deltas[i]`. -/
def moveToLimitIter (acts : List ActuatorData) (deltas : List Int) :
    List ActuatorData :=
  (acts.zip deltas).map
    (fun p => { p.1 with prevSteps := p.1.steps, steps := p.1.steps + p.2 })

/-- `bool haveStepsChanged()`: true iff some actuator has
`prevSteps != steps`. -/
def haveStepsChanged (acts : List ActuatorData) : Bool :=
  acts.any (fun a => a.prevSteps != a.steps)

/-- The state owned by one hall-sensor interrupt handler: its actuator's
debounce timestamp and step counter. -/
structure CounterState where
  lastDebounceTime : Nat
  steps : Int
deriving DecidableEq

/-- The debounce test `millis() - lastDebounceTime[i] > FALSE_PULSE_DELAY`,
as an `unsigned long` computation on absolute edge time `now`. -/
def accepts (s : CounterState) (now : Nat) : Bool :=
  decide (FALSE_PULSE_DELAY < (now - s.lastDebounceTime) % ULONG_MOD)

/-- One invocation of `counter_0` / `counter_1` (they are identical up to
the actuator index) for a rising edge at absolute time `now`:
if the edge qualifies, record the new timestamp and do
`steps += direction`; otherwise leave the state untouched. -/
def counterStep (direction : Int) (now : Nat) (s : CounterState) :
    CounterState :=
  if accepts s now then
    { lastDebounceTime := now, steps := s.steps + direction }
  else s

/-- The timestamps of the edges a handler accepts out of a sequence of
edge times, threading the handler state through `counterStep`. -/
def acceptedTimes (direction : Int) (s : CounterState) :
    List Nat → List Nat
  | [] => []
  | t :: ts =>
    if accepts s t then
      t :: acceptedTimes direction (counterStep direction t s) ts
    else
      acceptedTimes direction s ts

/-- Separation by more than the debounce threshold. -/
def DebounceSep (a b : Nat) : Prop := a + FALSE_PULSE_DELAY < b

instance : IsTrans Nat DebounceSep :=
  ⟨fun a b c h1 h2 => by
    unfold DebounceSep at *
    omega⟩

instance (a b : Nat) : Decidable (DebounceSep a b) :=
  inferInstanceAs (Decidable (a + FALSE_PULSE_DELAY < b))

/-- Sample actuator array with a negative step sum (`-1 + -2 = -3`),
reachable after reverse travel. -/
def negActs : List ActuatorData := [⟨0, -1, 0⟩, ⟨0, -2, 0⟩]

/-- The Scenario A drive state: `steps = [100, 80]`, direction Forward. -/
def scenarioA : DriveState :=
  { actuators := [⟨0, 100, 0⟩, ⟨0, 80, 0⟩], direction := 1 }

/-- The Scenario B drive state: arbitrary steps, direction Stop. -/
def scenarioB : DriveState :=
  { actuators := [⟨0, 123, 0⟩, ⟨0, -7, 0⟩], direction := 0 }

/-- Drive state exhibiting the 16-bit overflow of the speed computation:
actuator 1 has accumulated 65496 steps while actuator 0 is at 0. -/
def overflowState : DriveState :=
  { actuators := [⟨0, 0, 0⟩, ⟨0, 65496, 0⟩], direction := 1 }

/-- Sample homing state for C4: both actuators quiescent over the dwell. -/
def homingActs : List ActuatorData := [⟨0, 5, 0⟩, ⟨0, 7, 2⟩]

/-- Two drive states with the same `steps` columns but different stale
`speed`/`prevSteps` fields. -/
def detStateA : DriveState :=
  { actuators := [⟨3, 100, 7⟩, ⟨4, 80, 9⟩], direction := 1 }

/-- Companion state to `detStateA` for the C9 witness. -/
def detStateB : DriveState :=
  { actuators := [⟨0, 100, 1⟩, ⟨250, 80, 2⟩], direction := 1 }

/-! ### Helper lemmas -/

/-- Truncating division of a nonnegative dividend by a positive divisor
satisfies the floor-division bracketing law. -/
lemma tdiv_law_nonneg (a n : Int) (hn : 0 < n) (ha : 0 ≤ a) :
    a.tdiv n * n ≤ a ∧ a < (a.tdiv n + 1) * n := by
  rw [Int.tdiv_eq_ediv ha (le_of_lt hn)]
  exact ⟨Int.ediv_mul_le a (ne_of_gt hn), Int.lt_ediv_add_one_mul_self a hn⟩

/-- Truncating division of a negative dividend by a positive divisor
satisfies the mirrored (ceiling-style) bracketing law. -/
lemma tdiv_law_neg (a n : Int) (hn : 0 < n) (ha : a < 0) :
    (a.tdiv n - 1) * n < a ∧ a ≤ a.tdiv n * n := by
  have h := tdiv_law_nonneg (-a) n hn (by omega)
  rw [Int.neg_tdiv a n] at h
  have e1 : (-a.tdiv n + 1) * n = -(a.tdiv n * n) + n := by ring
  have e2 : -a.tdiv n * n = -(a.tdiv n * n) := by ring
  rw [e1, e2] at h
  have g1 : (a.tdiv n - 1) * n = a.tdiv n * n - n := by ring
  rw [g1]
  constructor <;> linarith [h.1, h.2]

/-- The running sum of `driveActuators` depends only on the `steps` column
of the actuator array. -/
lemma totalSteps_congr (acts1 acts2 : List ActuatorData)
    (h : acts1.map ActuatorData.steps = acts2.map ActuatorData.steps) :
    totalSteps acts1 = totalSteps acts2 := by
  have aux : ∀ (l1 l2 : List ActuatorData) (init : Int),
      l1.map ActuatorData.steps = l2.map ActuatorData.steps →
      l1.foldl (fun t a => t + a.steps) init =
        l2.foldl (fun t a => t + a.steps) init := by
    intro l1
    induction l1 with
    | nil =>
      intro l2 init h2
      cases l2 with
      | nil => rfl
      | cons b bs => simp at h2
    | cons a as ih =>
      intro l2 init h2
      cases l2 with
      | nil => simp at h2
      | cons b bs =>
        simp only [List.map_cons, List.cons.injEq] at h2
        simp only [List.foldl_cons]
        rw [h2.1]
        exact ih bs _ h2.2
  exact aux acts1 acts2 0 h

/-- The truncated average depends only on the `steps` column. -/
lemma avgSteps_congr (acts1 acts2 : List ActuatorData)
    (h : acts1.map ActuatorData.steps = acts2.map ActuatorData.steps) :
    avgSteps acts1 = avgSteps acts2 := by
  unfold avgSteps
  have hlen : acts1.length = acts2.length := by
    have h2 := congrArg List.length h
    simpa using h2
  rw [totalSteps_congr acts1 acts2 h, hlen]

/-- The speed column written by `driveActuators`, as a function of the
`steps` column. -/
lemma driveActuators_speeds (s : DriveState) :
    (driveActuators s).actuators.map ActuatorData.speed =
      (s.actuators.map ActuatorData.steps).map
        (fun st => speedCmd s.direction (avgSteps s.actuators) st) := by
  unfold driveActuators
  simp only [List.map_map]
  rfl

/-- The PWM writes of `driveActuators`, as a function of the `steps`
column. -/
lemma driveActuators_pwms (s : DriveState) :
    (driveActuators s).pwm =
      (s.actuators.map ActuatorData.steps).map
        (fun st => pwmWrite s.direction
          (speedCmd s.direction (avgSteps s.actuators) st)) := by
  unfold driveActuators
  simp only [List.map_map]
  rfl

/-- The offset column of `driveActuators`, as a function of the `steps`
column. -/
lemma offsets_eq (s : DriveState) :
    offsets s =
      (s.actuators.map ActuatorData.steps).map
        (fun st => offset s.direction (avgSteps s.actuators) st) := by
  unfold offsets
  simp only [List.map_map]
  rfl

/-- Along a nondecreasing edge sequence whose times are at least the
handler's current debounce timestamp, the accepted timestamps form a
chain in which consecutive entries are separated by more than the
debounce threshold, starting from the current timestamp. -/
lemma acceptedTimes_chain (d : Int) (s : CounterState) (ts : List Nat)
    (hsorted : List.Pairwise (fun a b => a ≤ b) ts)
    (hlb : ∀ t ∈ ts, s.lastDebounceTime ≤ t) :
    List.Chain' DebounceSep
      (s.lastDebounceTime :: acceptedTimes d s ts) := by
  induction ts generalizing s with
  | nil => simp [acceptedTimes]
  | cons t ts ih =>
    rw [List.pairwise_cons] at hsorted
    obtain ⟨hle, hsorted'⟩ := hsorted
    have hunf : acceptedTimes d s (t :: ts) =
        (if accepts s t = true then
          t :: acceptedTimes d (counterStep d t s) ts
         else acceptedTimes d s ts) := rfl
    by_cases hacc : accepts s t = true
    · rw [hunf, if_pos hacc, List.chain'_cons]
      have hstep : counterStep d t s =
          { lastDebounceTime := t, steps := s.steps + d } := by
        unfold counterStep
        rw [if_pos hacc]
      constructor
      · have hgt : FALSE_PULSE_DELAY <
            (t - s.lastDebounceTime) % ULONG_MOD := by
          simpa [accepts] using hacc
        have hmle : (t - s.lastDebounceTime) % ULONG_MOD ≤
            t - s.lastDebounceTime := Nat.mod_le _ _
        unfold DebounceSep
        omega
      · have hlast : (counterStep d t s).lastDebounceTime = t := by
          rw [hstep]
        have h2 := ih (counterStep d t s) hsorted'
          (fun u hu => by
            rw [hlast]
            exact hle u hu)
        rw [hlast] at h2
        exact h2
    · rw [hunf, if_neg hacc]
      exact ih s hsorted' (fun u hu => hlb u (List.mem_cons_of_mem t hu))

/-! ### Claim C1 -/

/-- Claim C1 counterexample: for `steps = [-1, -2]` (sum `-3`, `N = 2`)
the code computes `avgSteps = -3 tdiv 2 = -1` (truncation toward zero),
and the claimed law `avgSteps * N ≤ sum < (avgSteps+1) * N` fails:
`-1 * 2 = -2 > -3`. -/
theorem avgSteps_floor_law_counterexample :
    ¬ (avgSteps negActs * (NUMBER_OF_ACTUATORS : Int) ≤ totalSteps negActs ∧
       totalSteps negActs <
         (avgSteps negActs + 1) * (NUMBER_OF_ACTUATORS : Int)) := by
  decide

/-- Claim C1 (amended): for every actuator count `N ≥ 1`, the average
computed by `driveActuators` via C++ truncating division satisfies
`avgSteps * N ≤ sum < (avgSteps+1) * N` whenever `sum(steps) ≥ 0`; when
the sum is negative, truncation toward zero yields the mirrored law
`(avgSteps-1) * N < sum ≤ avgSteps * N` instead. -/
theorem avgSteps_truncating_division_law (acts : List ActuatorData)
    (h : 0 < acts.length) :
    (0 ≤ totalSteps acts →
      avgSteps acts * (acts.length : Int) ≤ totalSteps acts ∧
        totalSteps acts < (avgSteps acts + 1) * (acts.length : Int)) ∧
    (totalSteps acts < 0 →
      (avgSteps acts - 1) * (acts.length : Int) < totalSteps acts ∧
        totalSteps acts ≤ avgSteps acts * (acts.length : Int)) := by
  have hn : (0 : Int) < (acts.length : Int) := by exact_mod_cast h
  unfold avgSteps
  exact ⟨fun ha => tdiv_law_nonneg _ _ hn ha, fun ha => tdiv_law_neg _ _ hn ha⟩

/-- Concrete instance of the amended C1 law at `steps = [-1, -2]`. -/
theorem avgSteps_truncating_division_law_witness :
    0 < negActs.length ∧
    ((0 ≤ totalSteps negActs →
      avgSteps negActs * (negActs.length : Int) ≤ totalSteps negActs ∧
        totalSteps negActs <
          (avgSteps negActs + 1) * (negActs.length : Int)) ∧
    (totalSteps negActs < 0 →
      (avgSteps negActs - 1) * (negActs.length : Int) < totalSteps negActs ∧
        totalSteps negActs ≤ avgSteps negActs * (negActs.length : Int))) :=
  ⟨by decide, avgSteps_truncating_division_law negActs (by decide)⟩

/-! ### Claim C2 -/

/-- Claim C2: for `steps = [100, 80]` and direction Forward(+1), one call
of `driveActuators` computes `avgSteps = 90`, offsets `[-50, 50]` and
speeds `[50, 150]` (actuator 0 gets 50, actuator 1 gets 150). -/
theorem driveActuators_scenario_A :
    avgSteps scenarioA.actuators = 90 ∧
    offsets scenarioA = [-50, 50] ∧
    (driveActuators scenarioA).actuators.map ActuatorData.speed =
      [50, 150] := by
  decide

/-! ### Claim C3 -/

/-- Claim C3 fails on the code at `steps = [0, 65496]`, direction
Forward(+1): `avgSteps = 32748`, the `long` product `163740` narrows to
`offset = 32668`, the 16-bit sum `100 + 32668` wraps to `-32768`, the
`abs` macro returns `-32768` (negation of the most negative `int` wraps),
and `min(-32768, 255) = -32768` — so `driveActuators` stores speed
`-32768` for actuator 0, far outside `[0, 255]`, even though the clamp
`min(abs(...), 255)` exists precisely to bound the drive magnitude. -/
theorem driveActuators_speed_out_of_range :
    (driveActuators overflowState).actuators.map ActuatorData.speed =
      [-32768, 255] ∧
    ¬ (∀ a ∈ (driveActuators overflowState).actuators,
        0 ≤ a.speed ∧ a.speed ≤ 255) := by
  decide

/-! ### Claim C4 -/

/-- Claim C4: the `do { ... } while (haveStepsChanged())` loop of
`moveToLimit` exits after a dwell window exactly when no actuator's step
count changed across that window: with `deltas[i]` the net change the
interrupts made to actuator `i`'s `steps` during the dwell,
`haveStepsChanged` is `false` (loop terminates) iff every delta is zero. -/
theorem moveToLimit_exit_iff_no_change (acts : List ActuatorData)
    (deltas : List Int) (hlen : deltas.length = acts.length) :
    haveStepsChanged (moveToLimitIter acts deltas) = false ↔
      ∀ d ∈ deltas, d = 0 := by
  induction acts generalizing deltas with
  | nil =>
    have hnil : deltas = [] := List.eq_nil_of_length_eq_zero (by simpa using hlen)
    subst hnil
    simp [moveToLimitIter, haveStepsChanged]
  | cons a as ih =>
    cases deltas with
    | nil => simp at hlen
    | cons d ds =>
      have hlen' : ds.length = as.length := by simpa using hlen
      have hcons : haveStepsChanged (moveToLimitIter (a :: as) (d :: ds)) =
          ((a.steps != a.steps + d) ||
            haveStepsChanged (moveToLimitIter as ds)) := rfl
      rw [hcons, Bool.or_eq_false_iff, ih ds hlen', List.forall_mem_cons,
        bne_eq_false_iff_eq]
      constructor
      · rintro ⟨h1, h2⟩
        exact ⟨by omega, h2⟩
      · rintro ⟨h1, h2⟩
        exact ⟨by omega, h2⟩

/-- Concrete instance of C4: with zero deltas across the dwell window the
homing loop's exit test passes. -/
theorem moveToLimit_exit_iff_no_change_witness :
    haveStepsChanged (moveToLimitIter homingActs [0, 0]) = false :=
  (moveToLimit_exit_iff_no_change homingActs [0, 0] (by decide)).mpr
    (by decide)

/-! ### Claim C5 -/

/-- Claim C5: for every sequence of (nondecreasing, absolute-time) sensor
edges handled by one actuator's interrupt handler starting from the reset
debounce timestamp 0, any two accepted edges are separated by more than
the 8 ms debounce threshold (`DebounceSep`): an edge is accepted only if
the elapsed time since the previously accepted edge exceeds 8 ms, and is
otherwise discarded without being recorded. -/
theorem counter_debounce_separation (d : Int) (st : Int) (ts : List Nat)
    (hsorted : List.Pairwise (fun a b => a ≤ b) ts) :
    List.Pairwise DebounceSep (acceptedTimes d ⟨0, st⟩ ts) := by
  have h := acceptedTimes_chain d ⟨0, st⟩ ts hsorted (fun t _ => Nat.zero_le t)
  have h2 := h.tail
  rw [List.chain'_iff_pairwise] at h2
  exact h2

/-- Concrete instance of C5: edges at 5, 10, 20, 25, 40 ms; the handler
accepts 10, 20 and 40, each pair separated by more than 8 ms. -/
theorem counter_debounce_separation_witness :
    List.Pairwise DebounceSep (acceptedTimes 1 ⟨0, 0⟩ [5, 10, 20, 25, 40]) :=
  counter_debounce_separation 1 0 [5, 10, 20, 25, 40] (by decide)

/-! ### Claim C6 -/

/-- Claim C6: for a qualifying edge the interrupt handler records the new
timestamp and adjusts `steps` by `direction`'s signed value (+1 for
Forward, -1 for Reverse); for a rejected edge it leaves the whole handler
state — `steps` and the debounce timestamp — unchanged. -/
theorem counterStep_effect (d : Int) (now : Nat) (s : CounterState)
    (hd : d = 1 ∨ d = -1) :
    (accepts s now = true →
      (counterStep d now s).lastDebounceTime = now ∧
      (counterStep d now s).steps =
        (if d = 1 then s.steps + 1 else s.steps - 1)) ∧
    (accepts s now = false → counterStep d now s = s) := by
  constructor
  · intro h
    unfold counterStep
    rw [if_pos h]
    refine ⟨rfl, ?_⟩
    rcases hd with rfl | rfl
    · norm_num
    · rw [if_neg (by decide)]
      show s.steps + -1 = s.steps - 1
      omega
  · intro h
    unfold counterStep
    rw [if_neg (by simp [h])]

/-- Concrete instance of C6: the edge at 20 ms with timestamp 5 qualifies
(elapsed 15 ms), so the timestamp becomes 20 and `steps` increments. -/
theorem counterStep_effect_witness :
    ((1 : Int) = 1 ∨ (1 : Int) = -1) ∧
    ((accepts ⟨5, 3⟩ 20 = true →
      (counterStep 1 20 ⟨5, 3⟩).lastDebounceTime = 20 ∧
      (counterStep 1 20 ⟨5, 3⟩).steps =
        (if (1 : Int) = 1 then (3 : Int) + 1 else (3 : Int) - 1)) ∧
    (accepts ⟨5, 3⟩ 20 = false → counterStep 1 20 ⟨5, 3⟩ = ⟨5, 3⟩)) :=
  ⟨by decide, counterStep_effect 1 20 ⟨5, 3⟩ (by decide)⟩

/-! ### Claim C7 -/

/-- Claim C7: when `direction` is Stop(0), `driveActuators` writes 0 to
both the forward and reverse PWM channels of every actuator, whatever the
`steps` values and the computed offsets and speeds. -/
theorem driveActuators_stop_zeroes_pwm (s : DriveState)
    (h : s.direction = 0) :
    (driveActuators s).pwm = List.replicate s.actuators.length (0, 0) := by
  rw [driveActuators_pwms, h]
  simp [pwmWrite, Function.comp_def, List.map_const']

/-- Concrete instance of C7 at Scenario B: both channels of both
actuators are written 0. -/
theorem driveActuators_stop_zeroes_pwm_witness :
    (driveActuators scenarioB).pwm =
      List.replicate scenarioB.actuators.length (0, 0) :=
  driveActuators_stop_zeroes_pwm scenarioB (by decide)

/-! ### Claim C8 -/

/-- Claim C8: the forward and reverse PWM magnitudes written for each
actuator in one tick are mutually exclusive — at most one of the pair is
non-zero — both in `driveActuators`'s routing switch and in the dwell
writes of `moveToLimit`, for every direction. -/
theorem pwm_outputs_mutually_exclusive (s : DriveState) (d spd : Int) :
    (∀ p ∈ (driveActuators s).pwm, p.1 = 0 ∨ p.2 = 0) ∧
    ((moveToLimitPwm d spd).1 = 0 ∨ (moveToLimitPwm d spd).2 = 0) := by
  constructor
  · intro p hp
    unfold driveActuators at hp
    simp only [List.mem_map] at hp
    obtain ⟨a, _, rfl⟩ := hp
    unfold pwmWrite
    split
    · exact Or.inr rfl
    · split
      · exact Or.inl rfl
      · exact Or.inl rfl
  · unfold moveToLimitPwm
    by_cases h1 : d = 1
    · subst h1
      right
      simp
    · left
      simp [h1]

/-- Concrete instance of C8: the pair `(50, 0)` written for actuator 0 in
Scenario A, and a reverse dwell write at speed 200, each have at most one
non-zero channel. -/
theorem pwm_outputs_mutually_exclusive_witness :
    (((50 : Int), (0 : Int)).1 = 0 ∨ ((50 : Int), (0 : Int)).2 = 0) ∧
    ((moveToLimitPwm (-1) 200).1 = 0 ∨ (moveToLimitPwm (-1) 200).2 = 0) :=
  ⟨(pwm_outputs_mutually_exclusive scenarioA (-1) 200).1 (50, 0) (by decide),
    (pwm_outputs_mutually_exclusive scenarioA (-1) 200).2⟩

/-! ### Claim C9 -/

/-- Claim C9: `driveActuators` is deterministic in its inputs — two
invocations on states with identical `steps` columns and the same
direction compute identical offsets, identical speeds and identical PWM
channel outputs. -/
theorem driveActuators_deterministic (s1 s2 : DriveState)
    (hsteps : s1.actuators.map ActuatorData.steps =
      s2.actuators.map ActuatorData.steps)
    (hdir : s1.direction = s2.direction) :
    offsets s1 = offsets s2 ∧
    (driveActuators s1).actuators.map ActuatorData.speed =
      (driveActuators s2).actuators.map ActuatorData.speed ∧
    (driveActuators s1).pwm = (driveActuators s2).pwm := by
  have havg : avgSteps s1.actuators = avgSteps s2.actuators :=
    avgSteps_congr _ _ hsteps
  refine ⟨?_, ?_, ?_⟩
  · rw [offsets_eq, offsets_eq, hsteps, hdir, havg]
  · rw [driveActuators_speeds, driveActuators_speeds, hsteps, hdir, havg]
  · rw [driveActuators_pwms, driveActuators_pwms, hsteps, hdir, havg]

/-- Concrete instance of C9 at two states agreeing only on steps and
direction. -/
theorem driveActuators_deterministic_witness :
    (detStateA.actuators.map ActuatorData.steps =
      detStateB.actuators.map ActuatorData.steps) ∧
    detStateA.direction = detStateB.direction ∧
    (offsets detStateA = offsets detStateB ∧
      (driveActuators detStateA).actuators.map ActuatorData.speed =
        (driveActuators detStateB).actuators.map ActuatorData.speed ∧
      (driveActuators detStateA).pwm = (driveActuators detStateB).pwm) :=
  ⟨by decide, by decide,
    driveActuators_deterministic detStateA detStateB (by decide) (by decide)⟩

/-! ### Claim C10 -/

/-- Claim C10: `driveActuators` never modifies any actuator's `steps` or
`prevSteps` — both columns are unchanged by one call (no interrupts
interleaved), so `speed` is the only actuator field it writes. -/
theorem driveActuators_frame (s : DriveState) :
    (driveActuators s).actuators.map ActuatorData.steps =
      s.actuators.map ActuatorData.steps ∧
    (driveActuators s).actuators.map ActuatorData.prevSteps =
      s.actuators.map ActuatorData.prevSteps := by
  unfold driveActuators
  constructor
  · simp only [List.map_map]
    rfl
  · simp only [List.map_map]
    rfl

end Cyberwall
